import Mathlib

/-!
Verification of the conflict-resolving persistence core of the AIKTC
anonymous-feedback application (source: src/app1.py).

Records are JSON objects; a field of the Lean structure is `none` when the
corresponding key is absent from the object (Python `dict.get` fallbacks in
the source read through these `Option`s).  Timestamps are modelled as integer
numbers of seconds: the source stores them as strings in the fixed format
`%Y-%m-%dT%H:%M:%S` and compares them through `parse_utc`, which is strictly
monotone on that format, so the integer model preserves every comparison the
code performs.  `deleted_at` is doubly optional: the outer `Option` is key
presence, the inner one is the JSON `null` the code stores for "not deleted".
-/

/-- Reaction counters object (source: the `reactions` dict).  Each counter is
`none` when the key is absent; the code reads them with `.get(key, 0)`. -/
structure Reactions where
  like : Option Int
  helpful : Option Int
  agree : Option Int
deriving DecidableEq

/-- One reply object `{message, created_at}` (source lines 98, 152-153). -/
structure Reply where
  message : String
  created_at : Int
deriving DecidableEq

/-- A feedback or ticket record as stored in the JSON documents.  `none`
means the key is absent from the underlying object. -/
structure Record where
  id : Option Int
  message : Option String
  query : Option String
  status : Option String
  created_at : Option Int
  updated_at : Option Int
  replies : Option (List Reply)
  labels : Option (List String)
  priority : Option String
  assigned_to : Option String
  admin_notes : Option String
  reactions : Option Reactions
  deleted_at : Option (Option Int)
  history : Option (List String)
deriving DecidableEq

/-- The empty reactions dict `{}` used as the fallback of
`a.get("reactions", {})` (source line 99). -/
def emptyReactions : Reactions := ⟨none, none, none⟩

/-- `int(r.get("reactions", {}).get("like", 0))` (source line 101). -/
def reactLike (r : Record) : Int :=
  ((r.reactions.getD emptyReactions).like).getD 0

/-- `int(r.get("reactions", {}).get("helpful", 0))` (source line 102). -/
def reactHelpful (r : Record) : Int :=
  ((r.reactions.getD emptyReactions).helpful).getD 0

/-- `int(r.get("reactions", {}).get("agree", 0))` (source line 103). -/
def reactAgree (r : Record) : Int :=
  ((r.reactions.getD emptyReactions).agree).getD 0

/-- Normalisation of one loaded record: the `setdefault` block of
`load_json_list` (source lines 60-70).  Each absent key is filled with its
documented default; `updated_at` defaults to the (already defaulted)
`created_at`, and `created_at` itself defaults to the current time `now`. -/
def normalizeItem (now : Int) (r : Record) : Record :=
  let created := r.created_at.getD now
  { r with
    replies := some (r.replies.getD [])
    labels := some (r.labels.getD [])
    priority := some (r.priority.getD ("Medium"))
    assigned_to := some (r.assigned_to.getD (""))
    admin_notes := some (r.admin_notes.getD (""))
    reactions := some (r.reactions.getD ⟨some 0, some 0, some 0⟩)
    deleted_at := some (r.deleted_at.getD none)
    history := some (r.history.getD [])
    created_at := some created
    updated_at := some (r.updated_at.getD created) }

/-- Normalisation of a whole loaded list (the `for it in items` loop of
`load_json_list`, source lines 60-70). -/
def normalizeList (now : Int) (l : List Record) : List Record :=
  l.map (normalizeItem now)

/-- The effective timestamp the merge compares:
`parse_utc(r.get("updated_at", r.get("created_at", utc_now_str())))`
(source lines 95-96). -/
def effTime (now : Int) (r : Record) : Int :=
  r.updated_at.getD (r.created_at.getD now)

/-- Per-record conflict merge (source lines 93-105).  `a` is the
authoritative record from the re-read list, `b` the working-copy record.
The base is `a` when `ta >= tb` (`a if ta >= tb else b`), then `replies` is
replaced by the concatenation of both sides and each reaction counter by the
sum of both sides. -/
def mergeRecords (now : Int) (a b : Record) : Record :=
  let ta := effTime now a
  let tb := effTime now b
  let base := if tb ≤ ta then a else b
  { base with
    replies := some (a.replies.getD [] ++ b.replies.getD [])
    reactions := some
      { like := some (reactLike a + reactLike b)
        helpful := some (reactHelpful a + reactHelpful b)
        agree := some (reactAgree a + reactAgree b) } }

/-- Lookup in an insertion-ordered association list (Python `dict` access). -/
def lookupA (d : List (Int × Record)) (k : Int) : Option Record :=
  match d with
  | [] => none
  | (k0, v0) :: t => if k0 = k then some v0 else lookupA t k

/-- Insertion into an insertion-ordered association list, replicating Python
`dict` assignment: an existing key keeps its position and gets the new value,
a new key is appended at the end. -/
def insertA (d : List (Int × Record)) (k : Int) (v : Record) : List (Int × Record) :=
  match d with
  | [] => [(k, v)]
  | (k0, v0) :: t => if k0 = k then (k, v) :: t else (k0, v0) :: insertA t k v

/-- One step of the dict comprehension
`{x.get(id_key): x for x in latest if x.get(id_key) is not None}`
(source line 85). -/
def buildStep (d : List (Int × Record)) (x : Record) : List (Int × Record) :=
  match x.id with
  | none => d
  | some i => insertA d i x

/-- The authoritative index `by_id` (source line 85). -/
def buildById (latest : List Record) : List (Int × Record) :=
  latest.foldl buildStep []

/-- One iteration of the reconciliation loop `for it in items` (source lines
86-105): a working record with no id is skipped, a new id is inserted
unconditionally, an id present in the index is merged. -/
def mergeStep (now : Int) (d : List (Int × Record)) (it : Record) : List (Int × Record) :=
  match it.id with
  | none => d
  | some i =>
    match lookupA d i with
    | none => insertA d i it
    | some a => insertA d i (mergeRecords now a it)

/-- The merged list `list(by_id.values())` written back on the retry
(source lines 85-106). -/
def mergeLists (now : Int) (latest items : List Record) : List Record :=
  (items.foldl (mergeStep now) (buildById latest)).map Prod.snd

/-- `r.status_code in (200, 201)` (source lines 76, 108). -/
def isSuccess (c : Nat) : Bool := c == 200 || c == 201

/-- `r.status_code in (409, 422)` (source line 79). -/
def isConflict (c : Nat) : Bool := c == 409 || c == 422

/-- Observable outcome of `optimistic_save`: the returned success flag and
the document payloads pushed through `update_file_content`, in order. -/
structure SaveTrace where
  success : Bool
  writes : List (List Record)
deriving DecidableEq

/-- Control flow of `optimistic_save` (source lines 73-109).  `code1` is the
HTTP status of the first write, `latest` the authoritative list re-read after
a conflict, `code2` the status of the single retried write.  A successful
first write returns immediately; a conflicting first write merges and retries
exactly once; any other first result returns failure with no retry. -/
def optimisticSave (now : Int) (items : List Record) (code1 : Nat)
    (latest : List Record) (code2 : Nat) : SaveTrace :=
  if isSuccess code1 then ⟨true, [items]⟩
  else if isConflict code1 then
    ⟨isSuccess code2, [items, mergeLists now latest items]⟩
  else ⟨false, [items]⟩

/-- Python `str.lower()`, character by character. -/
def lowerStr (s : String) : String := String.mk (s.data.map Char.toLower)

/-- Python `str.strip()`: drop whitespace from both ends. -/
def trimStr (s : String) : String :=
  String.mk (((s.data.dropWhile Char.isWhitespace).reverse.dropWhile Char.isWhitespace).reverse)

/-- List-of-characters prefix test (helper for the substring test). -/
def isPrefB (p l : List Char) : Bool :=
  match p, l with
  | [], _ => true
  | _ :: _, [] => false
  | a :: ps, b :: ls => a == b && isPrefB ps ls

/-- Python `kw in h` on strings: `kw` occurs contiguously in `hay`. -/
def containsSub (hay kw : String) : Bool :=
  go hay.data kw.data
where
  go : List Char → List Char → Bool
  | hs, ks =>
    match hs with
    | [] => ks.isEmpty
    | _ :: t => isPrefB ks hs || go t ks

/-- The haystack strings contributed by one searched field name (source lines
146-151): a string-valued key contributes its lowercased value (absent keys
read as `""`), the list-valued `labels` key contributes its lowercased
elements.  Keys holding neither a string nor a list contribute nothing the
keyword could match, modelled as the single empty string. -/
def fieldHay (r : Record) (f : String) : List String :=
  if f == "message" then [lowerStr (r.message.getD (""))]
  else if f == "query" then [lowerStr (r.query.getD (""))]
  else if f == "status" then [lowerStr (r.status.getD (""))]
  else if f == "priority" then [lowerStr (r.priority.getD (""))]
  else if f == "assigned_to" then [lowerStr (r.assigned_to.getD (""))]
  else if f == "admin_notes" then [lowerStr (r.admin_notes.getD (""))]
  else if f == "labels" then
    match r.labels with
    | some l => l.map lowerStr
    | none => [""]
  else [""]

/-- The status guard `if status and it.get("status") != status: continue`
(source line 141): a falsy filter (absent or empty) passes everything,
otherwise the record's status key must be present and equal. -/
def statusPass (st : Option String) (r : Record) : Bool :=
  match st with
  | none => true
  | some s => if s == "" then true else r.status == some s

/-- The keyword match of `filter_items` (source lines 145-154): the keyword
occurs in some searched field's haystack or in some reply's message. -/
def matchesKw (r : Record) (fields : List String) (kw : String) : Bool :=
  (((fields.map (fieldHay r)).flatten) ++
      ((r.replies.getD []).map (fun rp => lowerStr rp.message))).any
    (fun h => containsSub h kw)

/-- `filter_items(items, keyword, fields, status=None)` (source lines
137-156): keeps, in order, the records passing the status guard and — unless
the normalised keyword is empty — matching the keyword. -/
def filter_items (items : List Record) (keyword : String) (fields : List String)
    (st : Option String) : List Record :=
  let kw := trimStr (lowerStr keyword)
  items.filter (fun it => statusPass st it && (kw == "" || matchesKw it fields kw))

/-- The 24-hour public-display filter (source lines 270-271):
`[x for x in feedback_list if parse_utc(x["created_at"]) > cutoff]` with
`cutoff = now - timedelta(hours=24)`, i.e. 86400 seconds. -/
def retentionFilter (now : Int) (items : List Record) : List Record :=
  items.filter (fun x => now - 86400 < x.created_at.getD 0)

/-- Store writes performed by the public feedback section while merely
loading and rendering (source lines 267-312): the section computes
`public_feedback`, filters, sorts and paginates it for display only;
`optimistic_save` appears solely inside `st.button` and form-submission
handlers, so a plain load issues no write at all. -/
def tabPublicLoadWrites (_items : List Record) (_now : Int) : List (List Record) := []

/-- `max([r["id"] for r in l])` over a non-empty list (source lines 243,
331); returns 0 on the empty list, on which the source never calls it. -/
def maxIds (l : List Record) : Int :=
  match l.map (fun r => r.id.getD 0) with
  | [] => 0
  | x :: xs => xs.foldl max x

/-- The id given to a new submission (source lines 243, 331):
`max(ids) + 1` on a non-empty collection, `1` on an empty one. -/
def newId (l : List Record) : Int :=
  match l with
  | [] => 1
  | _ :: _ => maxIds l + 1

/-- The new feedback record built on submission (source lines 242-255);
`msg` stands for the already masked and stripped message text. -/
def newFeedback (l : List Record) (msg : String) (now : Int) : Record :=
  { id := some (newId l)
    message := some msg
    query := none
    status := none
    created_at := some now
    updated_at := some now
    replies := some []
    labels := some []
    priority := some ("Medium")
    assigned_to := some ("")
    admin_notes := some ("")
    reactions := some ⟨some 0, some 0, some 0⟩
    deleted_at := some none
    history := some [] }

/-- The new ticket record built on submission (source lines 330-344). -/
def newTicket (l : List Record) (msg : String) (pri : String) (now : Int) : Record :=
  { id := some (newId l)
    message := none
    query := some msg
    status := some ("In Process")
    created_at := some now
    updated_at := some now
    replies := some []
    labels := some []
    priority := some pri
    assigned_to := some ("")
    admin_notes := some ("")
    reactions := some ⟨some 0, some 0, some 0⟩
    deleted_at := some none
    history := some [] }

/-- The feedback submission path (source lines 241-256): an input whose
strip is empty is rejected, otherwise the stripped text is passed through
`mask_pii` (the abstract text transform `mask`) and the new record is
appended to the working list before saving. -/
def submitFeedback (l : List Record) (raw : String) (mask : String → String)
    (now : Int) : List Record :=
  if trimStr raw == "" then l
  else l ++ [newFeedback l (mask (trimStr raw)) now]

/-- The ticket submission path (source lines 329-345). -/
def submitTicket (l : List Record) (raw : String) (mask : String → String)
    (pri : String) (now : Int) : List Record :=
  if trimStr raw == "" then l
  else l ++ [newTicket l (mask (trimStr raw)) pri now]

/-- The reaction handler for the like button (source lines 282-284): bump the
`like` counter and refresh `updated_at`. -/
def incLike (r : Record) (now : Int) : Record :=
  { r with
    reactions := some
      { like := some (reactLike r + 1)
        helpful := (r.reactions.getD emptyReactions).helpful
        agree := (r.reactions.getD emptyReactions).agree }
    updated_at := some now }

/-- The reaction handler for the helpful button (source lines 288-290). -/
def incHelpful (r : Record) (now : Int) : Record :=
  { r with
    reactions := some
      { like := (r.reactions.getD emptyReactions).like
        helpful := some (reactHelpful r + 1)
        agree := (r.reactions.getD emptyReactions).agree }
    updated_at := some now }

/-- A concrete record standing for an authoritative copy in examples. -/
def recA : Record :=
  { id := some 1
    message := some ("alpha")
    query := none
    status := none
    created_at := some 100
    updated_at := some 500
    replies := some [⟨"ra", 100⟩]
    labels := some []
    priority := some ("Medium")
    assigned_to := some ("")
    admin_notes := some ("notes-a")
    reactions := some ⟨some 1, some 0, some 0⟩
    deleted_at := some none
    history := some [] }

/-- A concrete record standing for a working copy in examples. -/
def recB : Record :=
  { id := some 1
    message := some ("beta")
    query := none
    status := none
    created_at := some 100
    updated_at := some 300
    replies := some [⟨"rb", 200⟩]
    labels := some []
    priority := some ("Medium")
    assigned_to := some ("")
    admin_notes := some ("notes-b")
    reactions := some ⟨some 0, some 1, some 0⟩
    deleted_at := some none
    history := some [] }

/-- A concrete soft-deleted record: `deleted_at` holds a timestamp. -/
def recDel : Record :=
  { id := some 7
    message := some ("gone")
    query := none
    status := none
    created_at := some 100
    updated_at := some 100
    replies := some []
    labels := some []
    priority := some ("Medium")
    assigned_to := some ("")
    admin_notes := some ("")
    reactions := some ⟨some 0, some 0, some 0⟩
    deleted_at := some (some 150)
    history := some [] }

/-- A concrete record older than the 24-hour retention window. -/
def recOld : Record :=
  { id := some 2
    message := some ("old")
    query := none
    status := none
    created_at := some 100
    updated_at := some 100
    replies := some []
    labels := some []
    priority := some ("Medium")
    assigned_to := some ("")
    admin_notes := some ("")
    reactions := some ⟨some 0, some 0, some 0⟩
    deleted_at := some none
    history := some [] }

/-- A concrete record inside the 24-hour retention window. -/
def recNew : Record :=
  { id := some 3
    message := some ("new")
    query := none
    status := none
    created_at := some 999999
    updated_at := some 999999
    replies := some []
    labels := some []
    priority := some ("Medium")
    assigned_to := some ("")
    admin_notes := some ("")
    reactions := some ⟨some 0, some 0, some 0⟩
    deleted_at := some none
    history := some [] }

/-! ## Helper lemmas -/

theorem lookupA_insertA_self (d : List (Int × Record)) (k : Int) (v : Record) :
    lookupA (insertA d k v) k = some v := by
  induction d with
  | nil => simp [insertA, lookupA]
  | cons h t ih =>
    obtain ⟨k0, v0⟩ := h
    by_cases hk : k0 = k
    · simp [insertA, hk, lookupA]
    · simp [insertA, hk, lookupA, ih]

theorem lookupA_insertA_ne (d : List (Int × Record)) (k j : Int) (v : Record)
    (h : k ≠ j) : lookupA (insertA d k v) j = lookupA d j := by
  induction d with
  | nil => simp [insertA, lookupA, h]
  | cons hd t ih =>
    obtain ⟨k0, v0⟩ := hd
    by_cases hk : k0 = k
    · subst hk
      simp [insertA, lookupA, h]
    · simp [insertA, hk, lookupA, ih]

theorem mem_of_lookupA (d : List (Int × Record)) (i : Int) (v : Record)
    (h : lookupA d i = some v) : (i, v) ∈ d := by
  induction d with
  | nil => simp [lookupA] at h
  | cons hd t ih =>
    obtain ⟨k0, v0⟩ := hd
    by_cases hk : k0 = i
    · subst hk
      simp [lookupA] at h
      subst h
      exact List.mem_cons_self _ _
    · simp [lookupA, hk] at h
      exact List.mem_cons_of_mem _ (ih h)

theorem buildFold_frame (l : List Record) (d : List (Int × Record)) (i : Int)
    (h : ∀ z ∈ l, z.id ≠ some i) :
    lookupA (l.foldl buildStep d) i = lookupA d i := by
  induction l generalizing d with
  | nil => rfl
  | cons x t ih =>
    have hx : x.id ≠ some i := h x (List.mem_cons_self _ _)
    have ht : ∀ z ∈ t, z.id ≠ some i := fun z hz => h z (List.mem_cons_of_mem _ hz)
    rw [List.foldl_cons, ih _ ht]
    unfold buildStep
    cases hid : x.id with
    | none => rfl
    | some j =>
      have hji : j ≠ i := fun he => hx (by rw [hid, he])
      exact lookupA_insertA_ne d j i x hji

theorem buildFold_mem (l : List Record) (d : List (Int × Record)) (x : Record)
    (i : Int) (hx : x ∈ l) (hid : x.id = some i)
    (hu : ∀ z ∈ l, z.id = some i → z = x) :
    lookupA (l.foldl buildStep d) i = some x := by
  induction l generalizing d with
  | nil => cases hx
  | cons y t ih =>
    rw [List.foldl_cons]
    by_cases hxt : x ∈ t
    · exact ih (buildStep d y) hxt fun z hz hzi => hu z (List.mem_cons_of_mem _ hz) hzi
    · have hxy : x = y := by
        rcases List.mem_cons.mp hx with he | ht
        · exact he
        · exact absurd ht hxt
      subst hxy
      have ht : ∀ z ∈ t, z.id ≠ some i := by
        intro z hz hzi
        exact hxt ((hu z (List.mem_cons_of_mem _ hz) hzi) ▸ hz)
      rw [buildFold_frame t _ i ht]
      unfold buildStep
      rw [hid]
      exact lookupA_insertA_self d i x

theorem mergeFold_frame (now : Int) (l : List Record) (d : List (Int × Record))
    (i : Int) (h : ∀ y ∈ l, y.id ≠ some i) :
    lookupA (l.foldl (mergeStep now) d) i = lookupA d i := by
  induction l generalizing d with
  | nil => rfl
  | cons x t ih =>
    have hx : x.id ≠ some i := h x (List.mem_cons_self _ _)
    have ht : ∀ y ∈ t, y.id ≠ some i := fun y hy => h y (List.mem_cons_of_mem _ hy)
    rw [List.foldl_cons, ih _ ht]
    cases hid : x.id with
    | none => simp [mergeStep, hid]
    | some j =>
      have hji : j ≠ i := fun he => hx (by rw [hid, he])
      cases hlk : lookupA d j with
      | none =>
        simp only [mergeStep, hid, hlk]
        exact lookupA_insertA_ne d j i x hji
      | some a =>
        simp only [mergeStep, hid, hlk]
        exact lookupA_insertA_ne d j i (mergeRecords now a x) hji

theorem seed_le_foldl_max (xs : List Int) (x : Int) : x ≤ xs.foldl max x := by
  induction xs generalizing x with
  | nil => exact le_refl x
  | cons y t ih =>
    rw [List.foldl_cons]
    calc x ≤ max x y := le_max_left x y
      _ ≤ t.foldl max (max x y) := ih (max x y)

theorem foldl_max_le (xs : List Int) (x a : Int) (h : a = x ∨ a ∈ xs) :
    a ≤ xs.foldl max x := by
  induction xs generalizing x with
  | nil =>
    rcases h with he | hm
    · simp [he]
    · cases hm
  | cons y t ih =>
    rw [List.foldl_cons]
    rcases h with he | hm
    · calc a ≤ max x y := he ▸ le_max_left x y
        _ ≤ t.foldl max (max x y) := seed_le_foldl_max t (max x y)
    · rcases List.mem_cons.mp hm with he | hmt
      · calc a ≤ max x y := he ▸ le_max_right x y
          _ ≤ t.foldl max (max x y) := seed_le_foldl_max t (max x y)
      · exact ih (max x y) (Or.inr hmt)

theorem le_maxIds (l : List Record) (r : Record) (h : r ∈ l) :
    r.id.getD 0 ≤ maxIds l := by
  unfold maxIds
  cases hl : l.map (fun r => r.id.getD 0) with
  | nil =>
    rcases List.map_eq_nil_iff.mp hl with rfl
    cases h
  | cons x xs =>
    have hm : r.id.getD 0 ∈ x :: xs := hl ▸ List.mem_map_of_mem _ h
    rcases List.mem_cons.mp hm with he | ht
    · exact foldl_max_le xs x _ (Or.inl he)
    · exact foldl_max_le xs x _ (Or.inr ht)

/-! ## Claim theorems -/

/-- C1: In the conflict-merge step of `optimistic_save`, for a record id
present on both sides, the merged record's scalar fields (message,
admin_notes) are taken from the copy with the strictly later `updated_at`,
and on a tie from the authoritative (latest-read) copy `a`. -/
theorem merge_scalar_last_writer_wins (now ta tb : Int) (a b : Record)
    (ha : a.updated_at = some ta) (hb : b.updated_at = some tb) :
    (tb < ta → (mergeRecords now a b).message = a.message ∧
      (mergeRecords now a b).admin_notes = a.admin_notes) ∧
    (ta < tb → (mergeRecords now a b).message = b.message ∧
      (mergeRecords now a b).admin_notes = b.admin_notes) ∧
    (ta = tb → (mergeRecords now a b).message = a.message ∧
      (mergeRecords now a b).admin_notes = a.admin_notes) := by
  have hea : effTime now a = ta := by unfold effTime; rw [ha]; rfl
  have heb : effTime now b = tb := by unfold effTime; rw [hb]; rfl
  refine ⟨fun h => ?_, fun h => ?_, fun h => ?_⟩ <;>
    simp only [mergeRecords] <;> rw [hea, heb]
  · rw [if_pos (le_of_lt h)]
    exact ⟨rfl, rfl⟩
  · rw [if_neg (not_le.mpr h)]
    exact ⟨rfl, rfl⟩
  · rw [if_pos (le_of_eq h.symm)]
    exact ⟨rfl, rfl⟩

/-- C1 witness: with `recA` updated at 500 and `recB` at 300, the merge
keeps the scalar fields of the later-updated authoritative copy `recA`. -/
theorem merge_scalar_lww_witness :
    (mergeRecords 0 recA recB).message = recA.message ∧
    (mergeRecords 0 recA recB).admin_notes = recA.admin_notes :=
  (merge_scalar_last_writer_wins 0 500 300 recA recB rfl rfl).1 (by decide)

theorem reactLike_merge (now : Int) (a b : Record) :
    reactLike (mergeRecords now a b) = reactLike a + reactLike b := rfl

theorem reactHelpful_merge (now : Int) (a b : Record) :
    reactHelpful (mergeRecords now a b) = reactHelpful a + reactHelpful b := rfl

theorem reactLike_incLike (r : Record) (t : Int) :
    reactLike (incLike r t) = reactLike r + 1 := rfl

theorem reactLike_incHelpful (r : Record) (t : Int) :
    reactLike (incHelpful r t) = reactLike r := rfl

theorem reactHelpful_incLike (r : Record) (t : Int) :
    reactHelpful (incLike r t) = reactHelpful r := rfl

theorem reactHelpful_incHelpful (r : Record) (t : Int) :
    reactHelpful (incHelpful r t) = reactHelpful r + 1 := rfl

/-- C2 counterexample: from the common base `recA` (whose `like` counter is
1), side A bumps `like` and side B bumps `helpful`; the merged `like` is the
sum 2 + 1 = 3, not the base's `like` + 1 = 2, because the merge sums absolute
counter values from both sides rather than reconstructing increments. -/
theorem merge_counter_not_base_increment :
    reactLike (mergeRecords 0 (incLike recA 600) (incHelpful recA 700)) ≠
      reactLike recA + 1 := by decide

/-- C2 amended: merging a like-bump against a helpful-bump of a common base
is symmetric in which side is treated as base, but each merged counter is the
sum of the two sides' absolute values: `like` becomes `2·base.like + 1` and
`helpful` becomes `2·base.helpful + 1`, which equals the claimed
`base + 1` exactly when the base counter is zero. -/
theorem merge_counters_sum_both_sides (now t1 t2 : Int) (base : Record) :
    (reactLike (mergeRecords now (incLike base t1) (incHelpful base t2)) =
        2 * reactLike base + 1 ∧
      reactHelpful (mergeRecords now (incLike base t1) (incHelpful base t2)) =
        2 * reactHelpful base + 1) ∧
    (reactLike (mergeRecords now (incHelpful base t2) (incLike base t1)) =
        2 * reactLike base + 1 ∧
      reactHelpful (mergeRecords now (incHelpful base t2) (incLike base t1)) =
        2 * reactHelpful base + 1) := by
  refine ⟨⟨?_, ?_⟩, ?_, ?_⟩
  · rw [reactLike_merge, reactLike_incLike, reactLike_incHelpful]
    ring
  · rw [reactHelpful_merge, reactHelpful_incLike, reactHelpful_incHelpful]
    ring
  · rw [reactLike_merge, reactLike_incHelpful, reactLike_incLike]
    ring
  · rw [reactHelpful_merge, reactHelpful_incHelpful, reactHelpful_incLike]
    ring

/-- C3: the merged record's replies are exactly the authoritative side's
replies followed by the working side's replies, so every reply present on
either side is present in the merged record. -/
theorem merge_replies_concat (now : Int) (a b : Record) :
    (mergeRecords now a b).replies =
      some (a.replies.getD [] ++ b.replies.getD []) ∧
    ∀ rp : Reply, (rp ∈ a.replies.getD [] ∨ rp ∈ b.replies.getD []) →
      rp ∈ (mergeRecords now a b).replies.getD [] := by
  refine ⟨rfl, fun rp h => ?_⟩
  show rp ∈ a.replies.getD [] ++ b.replies.getD []
  exact List.mem_append.mpr h

/-- C3 witness: the working-side reply of `recB` is present in the merge of
`recA` and `recB`. -/
theorem merge_replies_concat_witness :
    (⟨"rb", 200⟩ : Reply) ∈ (mergeRecords 0 recA recB).replies.getD [] :=
  (merge_replies_concat 0 recA recB).2 ⟨"rb", 200⟩ (Or.inr (by decide))

/-- C4: `optimistic_save` performs at most one reconciliation retry: a
conflicting first write followed by a conflicting retry yields failure after
exactly two write attempts, and a non-conflict first-attempt failure yields
failure after a single write attempt with no retry. -/
theorem save_single_retry (now : Int) (items latest : List Record) (c1 c2 : Nat) :
    (isConflict c1 = true → isConflict c2 = true →
      (optimisticSave now items c1 latest c2).success = false ∧
      (optimisticSave now items c1 latest c2).writes.length = 2) ∧
    (isSuccess c1 = false → isConflict c1 = false →
      (optimisticSave now items c1 latest c2).success = false ∧
      (optimisticSave now items c1 latest c2).writes.length = 1) := by
  have hcs : ∀ c : Nat, isConflict c = true → isSuccess c = false := by
    intro c hc
    unfold isConflict at hc
    simp only [Bool.or_eq_true, beq_iff_eq] at hc
    rcases hc with rfl | rfl <;> rfl
  constructor
  · intro h1 h2
    have hs1 := hcs c1 h1
    have hs2 := hcs c2 h2
    simp [optimisticSave, hs1, h1, hs2]
  · intro h1 h2
    simp [optimisticSave, h1, h2]

/-- C4 witness: two consecutive conflicts (409 then 422) fail after two
writes; a transport failure (500) fails after one write with no retry. -/
theorem save_single_retry_witness :
    ((optimisticSave 0 [recB] 409 [recA] 422).success = false ∧
      (optimisticSave 0 [recB] 409 [recA] 422).writes.length = 2) ∧
    ((optimisticSave 0 [recB] 500 [recA] 200).success = false ∧
      (optimisticSave 0 [recB] 500 [recA] 200).writes.length = 1) :=
  ⟨(save_single_retry 0 [recB] [recA] 409 422).1 (by decide) (by decide),
   (save_single_retry 0 [recB] [recA] 500 200).2 (by decide) (by decide)⟩

/-- C5: a record of the authoritative re-read list whose id is present,
unique in that list, and shared by no working-list record survives the
conflict merge unchanged: it is an element of the merged list written back.
In particular a record removed from the working list before saving is
restored by the reconciliation retry. -/
theorem merge_preserves_authoritative (now : Int) (latest items : List Record)
    (x : Record) (i : Int) (hx : x ∈ latest) (hid : x.id = some i)
    (hu : ∀ z ∈ latest, z.id = some i → z = x)
    (hitems : ∀ y ∈ items, y.id ≠ some i) :
    x ∈ mergeLists now latest items := by
  unfold mergeLists
  have h1 : lookupA (latest.foldl buildStep []) i = some x :=
    buildFold_mem latest [] x i hx hid hu
  have h2 : lookupA (items.foldl (mergeStep now) (buildById latest)) i = some x := by
    rw [mergeFold_frame now items (buildById latest) i hitems]
    exact h1
  exact List.mem_map.mpr ⟨(i, x), mem_of_lookupA _ i x h2, rfl⟩

/-- C5 witness: `recA` (absent from the working list `[recNew]`) is restored
into the merged list. -/
theorem merge_preserves_authoritative_witness :
    recA ∈ mergeLists 0 [recA] [recNew] :=
  merge_preserves_authoritative 0 [recA] [recNew] recA 1 (by decide) rfl
    (by decide) (by decide)

/-- C6 counterexample: `filter_items` returns the soft-deleted record
`recDel` (whose `deleted_at` is set) under the exact field list and empty
keyword the public view uses, with no way for the caller to request or
suppress its inclusion. -/
theorem filter_keeps_soft_deleted :
    recDel ∈ filter_items [recDel] ("") [("message"), ("admin_notes"), ("labels")] none ∧
    recDel.deleted_at = some (some 150) :=
  ⟨by decide, rfl⟩

/-- C6 amended: `filter_items` never consults `deleted_at`: rewriting every
record's `deleted_at` arbitrarily commutes with the filter, so soft-deleted
records are included in query results exactly like live ones. -/
theorem filter_ignores_deleted_at (items : List Record) (kw : String)
    (fields : List String) (st : Option String) (d : Option (Option Int)) :
    filter_items (items.map (fun r => { r with deleted_at := d })) kw fields st =
      (filter_items items kw fields st).map (fun r => { r with deleted_at := d }) := by
  simp only [filter_items]
  rw [List.filter_map]
  exact congrArg _ (List.filter_congr fun x _ => rfl)

/-- C7 counterexample: with one record older than 24 hours, the retention
filter shrinks the collection (to empty), yet the load path performs no store
write at all — the shrunken list is not persisted back. -/
theorem retention_shrinks_without_write :
    retentionFilter 1000000 [recOld] = [] ∧ ([recOld] : List Record) ≠ [] ∧
    tabPublicLoadWrites [recOld] 1000000 = [] :=
  ⟨by decide, by decide, rfl⟩

/-- C7 amended: on load the public view keeps for display exactly the
records whose `created_at` is strictly within the last 24 hours (86400
seconds), each kept record unchanged (replies and reactions included), and
persists nothing: the load path issues no store write. -/
theorem retention_display_only (now : Int) (items : List Record) :
    (∀ x ∈ items, ∀ t : Int, x.created_at = some t →
      (x ∈ retentionFilter now items ↔ now - 86400 < t)) ∧
    (∀ x ∈ retentionFilter now items, x ∈ items) ∧
    tabPublicLoadWrites items now = [] := by
  refine ⟨?_, ?_, rfl⟩
  · intro x hx t ht
    unfold retentionFilter
    rw [List.mem_filter]
    constructor
    · rintro ⟨_, hp⟩
      rw [ht] at hp
      simpa using hp
    · intro hlt
      refine ⟨hx, ?_⟩
      rw [ht]
      simpa using hlt
  · intro x hx
    unfold retentionFilter at hx
    exact (List.mem_filter.mp hx).1

/-- C7 witness: a record created inside the window is kept by the filter. -/
theorem retention_display_only_witness :
    recNew ∈ retentionFilter 1000000 [recNew] :=
  ((retention_display_only 1000000 [recNew]).1 recNew (by decide) 999999 rfl).mpr
    (by decide)

/-- C8: a valid (non-blank) feedback or ticket submission appends exactly one
record: the collection grows by one, the new record is the appended one, its
id is `newId` — 1 on an empty prior collection, `max(prior ids) + 1`
otherwise — and this id is strictly greater than every prior id. -/
theorem submission_appends_fresh_id (l lt : List Record) (raw rawT : String)
    (mask : String → String) (pri : String) (now : Int)
    (h : trimStr raw ≠ "") (hT : trimStr rawT ≠ "") :
    ((submitFeedback l raw mask now).length = l.length + 1 ∧
      submitFeedback l raw mask now = l ++ [newFeedback l (mask (trimStr raw)) now] ∧
      (newFeedback l (mask (trimStr raw)) now).id = some (newId l) ∧
      (l = [] → newId l = 1) ∧
      (l ≠ [] → newId l = maxIds l + 1) ∧
      (∀ r ∈ l, r.id.getD 0 < newId l)) ∧
    ((submitTicket lt rawT mask pri now).length = lt.length + 1 ∧
      submitTicket lt rawT mask pri now =
        lt ++ [newTicket lt (mask (trimStr rawT)) pri now] ∧
      (newTicket lt (mask (trimStr rawT)) pri now).id = some (newId lt) ∧
      (lt = [] → newId lt = 1) ∧
      (lt ≠ [] → newId lt = maxIds lt + 1) ∧
      (∀ r ∈ lt, r.id.getD 0 < newId lt)) := by
  have hfresh : ∀ m : List Record, ∀ r ∈ m, r.id.getD 0 < newId m := by
    intro m r hr
    cases m with
    | nil => cases hr
    | cons y t =>
      have hle := le_maxIds (y :: t) r hr
      show r.id.getD 0 < maxIds (y :: t) + 1
      omega
  have hone : ∀ m : List Record, m = [] → newId m = 1 := by
    intro m he
    rw [he]
    rfl
  have hmax : ∀ m : List Record, m ≠ [] → newId m = maxIds m + 1 := by
    intro m hne
    cases m with
    | nil => exact absurd rfl hne
    | cons y t => rfl
  have hfb : submitFeedback l raw mask now =
      l ++ [newFeedback l (mask (trimStr raw)) now] := by
    unfold submitFeedback
    rw [if_neg (by simpa using h)]
  have htk : submitTicket lt rawT mask pri now =
      lt ++ [newTicket lt (mask (trimStr rawT)) pri now] := by
    unfold submitTicket
    rw [if_neg (by simpa using hT)]
  refine ⟨⟨?_, hfb, rfl, hone l, hmax l, hfresh l⟩,
    ⟨?_, htk, rfl, hone lt, hmax lt, hfresh lt⟩⟩
  · rw [hfb]
    simp
  · rw [htk]
    simp

/-- C8 witness: submitting a non-blank feedback over a one-record collection
yields a two-record collection. -/
theorem submission_appends_fresh_id_witness :
    (submitFeedback [recA] (" hi ") (fun s => s) 7).length =
      ([recA] : List Record).length + 1 :=
  (submission_appends_fresh_id [recA] [] (" hi ") ("q") (fun s => s) ("Low") 7
    (by decide) (by decide)).1.1

/-- C9: the merged record's `updated_at` is the maximum of the two copies'
`updated_at` values, hence greater than or equal to each of them: the merge
never regresses `updated_at`. -/
theorem merge_updated_at_monotone (now ta tb : Int) (a b : Record)
    (ha : a.updated_at = some ta) (hb : b.updated_at = some tb) :
    ∃ t, (mergeRecords now a b).updated_at = some t ∧ ta ≤ t ∧ tb ≤ t := by
  have hea : effTime now a = ta := by unfold effTime; rw [ha]; rfl
  have heb : effTime now b = tb := by unfold effTime; rw [hb]; rfl
  by_cases hle : tb ≤ ta
  · refine ⟨ta, ?_, le_refl ta, hle⟩
    simp only [mergeRecords]
    rw [hea, heb, if_pos hle]
    exact ha
  · refine ⟨tb, ?_, le_of_lt (not_le.mp hle), le_refl tb⟩
    simp only [mergeRecords]
    rw [hea, heb, if_neg hle]
    exact hb

/-- C9 witness: merging `recA` (updated at 500) with `recB` (updated at 300)
yields an `updated_at` at least as late as both. -/
theorem merge_updated_at_monotone_witness :
    ∃ t, (mergeRecords 0 recA recB).updated_at = some t ∧
      (500 : Int) ≤ t ∧ (300 : Int) ≤ t :=
  merge_updated_at_monotone 0 500 300 recA recB rfl rfl

/-- C10: load-time normalisation is idempotent on whole record lists, even
when the second pass runs at a different current time: every field filled by
the first pass is present, so the second pass changes nothing. -/
theorem normalize_idempotent (l : List Record) (n1 n2 : Int) :
    normalizeList n2 (normalizeList n1 l) = normalizeList n1 l := by
  unfold normalizeList
  rw [List.map_map]
  exact List.map_congr_left fun r _ => rfl
